import Mathlib

/-!
Verification development for the clustered-DNA-damage scorer
(`ScoreClusteredDNADamage.cc`).

The scorer's data and algorithms are shallowly embedded:

* `G4int` is modelled as `Int`.
* `G4double` energies are modelled as `Rat`: every operation the scorer
  performs on energies is addition and order comparison, which the
  embedding models exactly on rationals.
* `std::map<G4int, V>` is modelled as an association list
  `List (Int × V)` kept in ascending key order (the iteration order of
  `std::map`), as produced by `mapIndex` below.
* `std::vector` is modelled as `List`.
* The damage-type ids `fIdSSB`, `fIdBD`, `fIdDSB` (declared in the
  scorer's header, which only requires them to be three distinct
  integers) are modelled as the closed inductive type `DamageType`.
* Configuration members that are set in the constructor and never
  mutated afterwards are grouped in the immutable `ScorerConfig`
  (thresholds) plus the explicit `fNbOfAlgo` count passed to the
  end-of-event hook; the mutable members live in `ScorerState`.
* While loops over two cursors are written with an explicit fuel
  argument so that they are structurally recursive and evaluate by
  kernel reduction; fuel-irrelevance lemmas below recover the clean
  unfolding equations.
* `G4int` division (C++ `/`, truncation towards zero) is `Int.tdiv`.
-/

namespace ClusteredDNADamage

/-- Closed damage taxonomy: the integer ids `fIdSSB`, `fIdBD`, `fIdDSB`
from the scorer header are modelled as a closed inductive type. -/
inductive DamageType where
  | ssb
  | bd
  | dsb
deriving DecidableEq, Repr

/-- Model of `std::map<G4int, G4double>`: bp index → accumulated energy,
ascending by key. -/
abbrev InnerMap := List (Int × Rat)

/-- Model of `std::map<G4int, std::map<G4int, G4double>>`: split index → inner map,
ascending by key. -/
abbrev SplitMap := List (Int × InnerMap)

/-- Model of `std::map<G4int, std::map<G4int, std::map<G4int, G4double>>>`:
fiber (parentDepth) → split map, ascending by key. -/
abbrev FiberMap := List (Int × SplitMap)

/-- Model of `operator[]` of `std::map`: returns the value at key `k`, inserting
the default value `d` (value-initialization) at the sorted position when
the key is absent.  Returns the value together with the updated map. -/
def mapIndex {α : Type} : List (Int × α) → Int → α → α × List (Int × α)
  | [], k, d => (d, [(k, d)])
  | (k', v) :: rest, k, d =>
    if k < k' then (d, (k, d) :: (k', v) :: rest)
    else if k = k' then (v, (k', v) :: rest)
    else
      let r := mapIndex rest k d
      (r.1, (k', v) :: r.2)

/-- The value `17.5`, the scorer's default energy threshold (`17.5 * eV` in the
source; the Geant4 unit factor is abstracted away).  Written in
normalized constructor form so that kernel reduction works on it. -/
def seventeenPointFive : Rat := ⟨35, 2, by norm_num, by norm_num [Nat.Coprime]⟩

/-!
## Simple-Damage Extractor (`RecordSimpleDamage`)

```
std::vector<G4int> ScoreClusteredDNADamage::RecordSimpleDamage(G4double ThreshEDep,
    std::map<G4int,std::map<G4int,G4double>> mapEDep)
```

Note the map parameter is received **by value**: the while-loop pops
`mapEDep[0].begin()` until the *local copy* is empty; the caller's map
is untouched.
-/

/-- The drain loop of `RecordSimpleDamage`: repeatedly take the first
(smallest-key) entry of the inner map, keep its key when the energy
reaches the threshold, and erase it. -/
def drainLoop (threshEDep : Rat) : InnerMap → List Int
  | [] => []
  | (indexBP, eDep) :: rest =>
    if eDep ≥ threshEDep then indexBP :: drainLoop threshEDep rest
    else drainLoop threshEDep rest

/-- Model of `RecordSimpleDamage`: drains split index 0 of (a copy of) the given
per-fiber map (`while (!mapEDep[0].empty()) ...`), returning the bp
indices whose accumulated energy is ≥ the threshold.  `mapEDep[0]` on
the local copy default-constructs an empty inner map when key 0 is
absent. -/
def recordSimpleDamage (threshEDep : Rat) (mapEDep : SplitMap) : List Int :=
  drainLoop threshEDep ((mapEDep.lookup 0).getD [])

/-- A *call* to `RecordSimpleDamage` as seen from the caller: because
the C++ parameter is passed by value, the caller receives the damage
list while its own map is returned unchanged. -/
def recordSimpleDamageCall (threshEDep : Rat) (mapEDep : SplitMap) :
    List Int × SplitMap :=
  (recordSimpleDamage threshEDep mapEDep, mapEDep)

/-!
## DSB Pairing Engine (`RecordDSB1D`)

Two cursors walk the strand-1 and strand-2 SSB index vectors.  A pair
within `fThresDistForDSB` is emitted (lowest index first) and **erased**
from both vectors; otherwise the cursor over the smaller index advances,
leaving that element in its vector.  The loop returns the emitted pairs
together with the two vectors as they remain after the loop (erased
elements removed, skipped elements kept).  `abs(siteDiff)` of the
source is written `((site2 - site1).natAbs : Int)`.

Each iteration shortens the part of the two vectors still to be
visited, so `l1.length + l2.length` fuel always suffices.
-/

/-- The cursor loop of `RecordDSB1D`.  Result: (emitted DSB pairs,
remaining strand-1 vector, remaining strand-2 vector). -/
def recordDSB1DLoop (thresDistForDSB : Int) :
    Nat → List Int → List Int → List (Int × Int) × List Int × List Int
  | _, [], l2 => ([], [], l2)
  | _, l1, [] => ([], l1, [])
  | 0, l1, l2 => ([], l1, l2)
  | fuel + 1, site1 :: t1, site2 :: t2 =>
    if ((site2 - site1).natAbs : Int) ≤ thresDistForDSB then
      let r := recordDSB1DLoop thresDistForDSB fuel t1 t2
      ((if site1 ≤ site2 then (site1, site2) else (site2, site1)) :: r.1,
        r.2.1, r.2.2)
    else if site2 - site1 < 0 then
      let r := recordDSB1DLoop thresDistForDSB fuel (site1 :: t1) t2
      (r.1, r.2.1, site2 :: r.2.2)
    else
      let r := recordDSB1DLoop thresDistForDSB fuel t1 (site2 :: t2)
      (r.1, site1 :: r.2.1, r.2.2)

/-- Model of `RecordDSB1D` together with its mutation of the member vectors
`fIndicesSSB1` / `fIndicesSSB2`: (DSB pairs, remaining strand-1 SSBs,
remaining strand-2 SSBs). -/
def recordDSB1DAux (thresDistForDSB : Int) (l1 l2 : List Int) :
    List (Int × Int) × List Int × List Int :=
  recordDSB1DLoop thresDistForDSB (l1.length + l2.length) l1 l2

/-- The vector `indicesDSB1D` returned by `RecordDSB1D`: the two bp indices
of each emitted DSB pushed back in order. -/
def recordDSB1D (thresDistForDSB : Int) (l1 l2 : List Int) : List Int :=
  (recordDSB1DAux thresDistForDSB l1 l2).1.flatMap (fun p => [p.1, p.2])

/-!
## Damage Merge (`CombineSimpleDamage`)

The source repeats one insertion block four times (BD strand 1, SSB
strand 2, BD strand 2, DSB): walk the damage list and the accumulated
combined vector together; insert the damage entry before the first
combined entry with a strictly greater bp index (`*it < (*itSimple)[0]`),
leaving the cursor on the inserted element; append whatever is left when
the combined vector is exhausted.  `insertLoopGo` is that block, with a
fuel argument (each step either consumes a damage entry, net measure
`2·|xs| + |acc|` decreasing by one, or advances the cursor, measure also
decreasing by one, so `2·|xs| + |acc|` fuel suffices). -/
def insertLoopGo (t : DamageType) :
    Nat → List Int → List (Int × DamageType) → List (Int × DamageType)
  | _, [], acc => acc
  | _, xs, [] => xs.map (fun x => (x, t))
  | 0, _ :: _, _ :: _ => []
  | fuel + 1, x :: xs, a :: accRest =>
    if x < a.1 then insertLoopGo t fuel xs ((x, t) :: a :: accRest)
    else a :: insertLoopGo t fuel (x :: xs) accRest

/-- One insertion block of `CombineSimpleDamage`: merge the damage list
`xs` (tagged `t`) into the accumulated combined vector `acc`. -/
def insertLoop (t : DamageType) (xs : List Int)
    (acc : List (Int × DamageType)) : List (Int × DamageType) :=
  insertLoopGo t (2 * xs.length + acc.length) xs acc

/-- Model of `CombineSimpleDamage`: seed with the strand-1 SSBs, then insert the
strand-1 BDs, strand-2 SSBs, strand-2 BDs and DSB entries, in that
order. -/
def combineSimpleDamage (ssb1 bd1 ssb2 bd2 dsb : List Int) :
    List (Int × DamageType) :=
  let indicesSimple := ssb1.map (fun site => (site, DamageType.ssb))
  let indicesSimple := insertLoop DamageType.bd bd1 indicesSimple
  let indicesSimple := insertLoop DamageType.ssb ssb2 indicesSimple
  let indicesSimple := insertLoop DamageType.bd bd2 indicesSimple
  insertLoop DamageType.dsb dsb indicesSimple

/-- Modelled from the spec (§4.4): entries are "stably inserted before
the first existing entry with a strictly greater bpIndex".  Used to
compare the source's cursor-based merge against the spec's wording. -/
def insertSpec (t : DamageType) (x : Int) :
    List (Int × DamageType) → List (Int × DamageType)
  | [] => [(x, t)]
  | a :: rest => if x < a.1 then (x, t) :: a :: rest else a :: insertSpec t x rest

/-- Modelled from the spec (§4.4): insert every element of `xs`, in
order, by the insert-before-first-strictly-greater rule. -/
def insertAllSpec (t : DamageType) (xs : List Int)
    (acc : List (Int × DamageType)) : List (Int × DamageType) :=
  xs.foldl (fun acc x => insertSpec t x acc) acc

/-- Modelled from the spec (§4.4): the five-list merge pipeline stated
with `insertAllSpec`. -/
def combineSimpleDamageSpec (ssb1 bd1 ssb2 bd2 dsb : List Int) :
    List (Int × DamageType) :=
  insertAllSpec DamageType.dsb dsb
    (insertAllSpec DamageType.bd bd2
      (insertAllSpec DamageType.ssb ssb2
        (insertAllSpec DamageType.bd bd1
          (ssb1.map (fun site => (site, DamageType.ssb))))))

/-!
## Cluster Builder (`RecordClusteredDamage`, `RecordCluster`,
`AddDamageToCluster`)
-/

/-- The `DamageCluster` accumulator struct.  The source's field `end` is
a reserved word in Lean and is called `endSite` here. -/
structure DamageCluster where
  numSSB : Int
  numBD : Int
  numDSB : Int
  start : Int
  endSite : Int
  size : Int
deriving DecidableEq, Repr

/-- The value `DamageCluster()`: the default constructor zero-initializes every
field. -/
def damageClusterInit : DamageCluster := ⟨0, 0, 0, 0, 0, 0⟩

/-- The configuration members of the scorer, set in the constructor and
never mutated afterwards. -/
structure ScorerConfig where
  fThresDistForDSB : Int
  fThresEdepForSSB : Rat
  fThresEdepForBD : Rat
  fThresDistForCluster : Int
deriving DecidableEq, Repr

/-- The mutable members of the scorer that survive across calls: the
four accumulated-energy maps, the five running tallies and the
per-cluster record vectors.  (The `fVEdepStrand...` members and the
`fIndices...` members are overwritten before every use inside
`UserHookForEndOfEvent` and are modelled as locals of the hook; the
`fNumEdeps.../fTotalEdep...` diagnostic counters are never read.) -/
structure ScorerState where
  fGenVEdepStrand1Backbone : FiberMap
  fGenVEdepStrand2Backbone : FiberMap
  fGenVEdepStrand1Base : FiberMap
  fGenVEdepStrand2Base : FiberMap
  fTotalSSB : Int
  fTotalBD : Int
  fTotalDSB : Int
  fTotalComplexDSB : Int
  fTotalNonDSBCluster : Int
  fComplexDSBSizes : List Int
  fComplexDSBNumSSB : List Int
  fComplexDSBNumBD : List Int
  fComplexDSBNumDSB : List Int
  fComplexDSBNumDamage : List Int
  fNonDSBClusterSizes : List Int
  fNonDSBClusterNumSSB : List Int
  fNonDSBClusterNumBD : List Int
  fNonDSBClusterNumDamage : List Int
deriving DecidableEq, Repr

/-- The scorer state right after construction: empty maps, zero
tallies, empty record vectors. -/
def scorerStateZero : ScorerState :=
  ⟨[], [], [], [], 0, 0, 0, 0, 0, [], [], [], [], [], [], [], [], []⟩

/-- Model of `AddDamageToCluster`: set the cluster's start (fresh cluster) or end
(growing cluster) to the damage site, then increment the per-cluster
counter of the damage's type and decrement the matching running tally.
(The `exit(0)` branch for an unrecognized damage type is unreachable:
`DamageType` is closed.) -/
def addDamageToCluster (s : ScorerState) (cluster : DamageCluster)
    (damageSite : Int) (damageType : DamageType) (newCluster : Bool) :
    ScorerState × DamageCluster :=
  let cluster :=
    if newCluster then { cluster with start := damageSite }
    else { cluster with endSite := damageSite }
  match damageType with
  | DamageType.ssb =>
    ({ s with fTotalSSB := s.fTotalSSB - 1 },
      { cluster with numSSB := cluster.numSSB + 1 })
  | DamageType.bd =>
    ({ s with fTotalBD := s.fTotalBD - 1 },
      { cluster with numBD := cluster.numBD + 1 })
  | DamageType.dsb =>
    ({ s with fTotalDSB := s.fTotalDSB - 1 },
      { cluster with numDSB := cluster.numDSB + 1 })

/-- Model of `RecordCluster`: a cluster with `numDSB > 0` has its `numDSB` halved
and is recorded as a Complex DSB; otherwise it is recorded as a Non-DSB
cluster.  The cluster accumulator is reset either way. -/
def recordCluster (s : ScorerState) (cluster : DamageCluster) :
    ScorerState × DamageCluster :=
  if cluster.numDSB > 0 then
    let cluster := { cluster with numDSB := cluster.numDSB.tdiv 2 }
    ({ s with
        fComplexDSBSizes := s.fComplexDSBSizes ++ [cluster.endSite - cluster.start + 1],
        fComplexDSBNumSSB := s.fComplexDSBNumSSB ++ [cluster.numSSB],
        fComplexDSBNumBD := s.fComplexDSBNumBD ++ [cluster.numBD],
        fComplexDSBNumDSB := s.fComplexDSBNumDSB ++ [cluster.numDSB],
        fComplexDSBNumDamage :=
          s.fComplexDSBNumDamage ++ [cluster.numSSB + cluster.numBD + cluster.numDSB],
        fTotalComplexDSB := s.fTotalComplexDSB + 1 },
      damageClusterInit)
  else
    ({ s with
        fNonDSBClusterSizes := s.fNonDSBClusterSizes ++ [cluster.endSite - cluster.start + 1],
        fNonDSBClusterNumSSB := s.fNonDSBClusterNumSSB ++ [cluster.numSSB],
        fNonDSBClusterNumBD := s.fNonDSBClusterNumBD ++ [cluster.numBD],
        fNonDSBClusterNumDamage :=
          s.fNonDSBClusterNumDamage ++ [cluster.numSSB + cluster.numBD],
        fTotalNonDSBCluster := s.fTotalNonDSBCluster + 1 },
      damageClusterInit)

/-- The scan loop of `RecordClusteredDamage`, iterating from the second
damage site; carries the state, the cluster accumulator and the
`newCluster` / `buildingCluster` flags. -/
def clusterLoop (cfg : ScorerConfig) :
    ScorerState → DamageCluster → Bool → Bool → Int × DamageType →
    List (Int × DamageType) → ScorerState × DamageCluster × Bool × Bool
  | s, cluster, newCluster, buildingCluster, _, [] =>
    (s, cluster, newCluster, buildingCluster)
  | s, cluster, newCluster, buildingCluster, sitePrev, siteCur :: rest =>
    if siteCur.1 - sitePrev.1 ≤ cfg.fThresDistForCluster then
      if newCluster then
        let r1 := addDamageToCluster s cluster sitePrev.1 sitePrev.2 newCluster
        let r2 := addDamageToCluster r1.1 r1.2 siteCur.1 siteCur.2 false
        clusterLoop cfg r2.1 r2.2 false true siteCur rest
      else
        let r2 := addDamageToCluster s cluster siteCur.1 siteCur.2 newCluster
        clusterLoop cfg r2.1 r2.2 newCluster buildingCluster siteCur rest
    else
      if buildingCluster then
        let r := recordCluster s cluster
        clusterLoop cfg r.1 r.2 true false siteCur rest
      else
        clusterLoop cfg s cluster newCluster buildingCluster siteCur rest

/-- Model of `RecordClusteredDamage`: return immediately when fewer than two
damages; otherwise scan, record a cluster still being built at the end
of the list, and finally halve `fTotalDSB` (C++ integer division). -/
def recordClusteredDamage (cfg : ScorerConfig) (s : ScorerState)
    (indicesSimple : List (Int × DamageType)) : ScorerState :=
  match indicesSimple with
  | [] => s
  | [_] => s
  | first :: second :: rest =>
    let r := clusterLoop cfg s damageClusterInit true false first (second :: rest)
    let s := r.1
    let s := if r.2.2.2 then (recordCluster s r.2.1).1 else s
    { s with fTotalDSB := s.fTotalDSB.tdiv 2 }

/-- Sum of `numSSB` over all recorded clusters (both kinds). -/
def recordedNumSSB (s : ScorerState) : Int :=
  s.fComplexDSBNumSSB.sum + s.fNonDSBClusterNumSSB.sum

/-- Sum of `numBD` over all recorded clusters (both kinds). -/
def recordedNumBD (s : ScorerState) : Int :=
  s.fComplexDSBNumBD.sum + s.fNonDSBClusterNumBD.sum

/-- Sum of `numDSB` over all recorded clusters (only Complex DSB
clusters carry DSBs). -/
def recordedNumDSB (s : ScorerState) : Int :=
  s.fComplexDSBNumDSB.sum

/-!
## End of event (`UserHookForEndOfEvent`)
-/

/-- One row of the ntuple, in the column order of the constructor's
`RegisterColumnI` calls. -/
structure EventRow where
  eventID : Int
  totalSSB : Int
  totalDSB : Int
  totalBD : Int
  totalComplexDSB : Int
  totalNonDSBCluster : Int
deriving DecidableEq, Repr

/-- One iteration of `UserHookForEndOfEvent`'s inner loop over the
variance-reduction split copies (`for (int i = 0; i < fNbOfAlgo; i++)`):
extract the simple damages from the four per-fiber maps (all passed by
value, so every iteration sees the same maps), pair DSBs, update the
tallies, merge, cluster, and fill one ntuple row when any tally is
positive. -/
def splitIter (cfg : ScorerConfig) (eventID : Int)
    (v1Backbone v2Backbone v1Base v2Base : SplitMap)
    (s : ScorerState) (rows : List EventRow) : ScorerState × List EventRow :=
  let indicesSSB1 := recordSimpleDamage cfg.fThresEdepForSSB v1Backbone
  let indicesSSB2 := recordSimpleDamage cfg.fThresEdepForSSB v2Backbone
  let indicesBD1 := recordSimpleDamage cfg.fThresEdepForBD v1Base
  let indicesBD2 := recordSimpleDamage cfg.fThresEdepForBD v2Base
  let r := recordDSB1DAux cfg.fThresDistForDSB indicesSSB1 indicesSSB2
  let indicesDSB1D := r.1.flatMap (fun p => [p.1, p.2])
  let indicesSSB1 := r.2.1
  let indicesSSB2 := r.2.2
  let s := { s with
    fTotalSSB := s.fTotalSSB + (indicesSSB1.length : Int) + (indicesSSB2.length : Int),
    fTotalBD := s.fTotalBD + (indicesBD1.length : Int) + (indicesBD2.length : Int),
    fTotalDSB := s.fTotalDSB + (indicesDSB1D.length : Int) }
  let indicesSimple :=
    combineSimpleDamage indicesSSB1 indicesBD1 indicesSSB2 indicesBD2 indicesDSB1D
  let s := recordClusteredDamage cfg s indicesSimple
  (s,
    if s.fTotalSSB > 0 ∨ s.fTotalBD > 0 ∨ s.fTotalDSB > 0 ∨
        s.fTotalComplexDSB > 0 ∨ s.fTotalNonDSBCluster > 0 then
      rows ++ [⟨eventID, s.fTotalSSB, s.fTotalDSB, s.fTotalBD,
        s.fTotalComplexDSB, s.fTotalNonDSBCluster⟩]
    else rows)

/-- The iteration of `splitIter` `fNbOfAlgo` times. -/
def runSplits (cfg : ScorerConfig) (eventID : Int)
    (v1Backbone v2Backbone v1Base v2Base : SplitMap) :
    Nat → ScorerState → List EventRow → ScorerState × List EventRow
  | 0, s, rows => (s, rows)
  | n + 1, s, rows =>
    let r := splitIter cfg eventID v1Backbone v2Backbone v1Base v2Base s rows
    runSplits cfg eventID v1Backbone v2Backbone v1Base v2Base n r.1 r.2

/-- The outer loop of `UserHookForEndOfEvent` over the DNA fibres (the
keys of `fGenVEdepStrand1Backbone`): fetch the four per-fiber maps with
`operator[]` (which inserts an empty entry into the other three
generation maps when the fiber key is absent there), then run the split
loop. -/
def fiberLoop (cfg : ScorerConfig) (fNbOfAlgo : Nat) (eventID : Int) :
    List Int → ScorerState → List EventRow → ScorerState × List EventRow
  | [], s, rows => (s, rows)
  | parentDepth :: restKeys, s, rows =>
    let a1 := mapIndex s.fGenVEdepStrand1Backbone parentDepth []
    let s := { s with fGenVEdepStrand1Backbone := a1.2 }
    let a2 := mapIndex s.fGenVEdepStrand2Backbone parentDepth []
    let s := { s with fGenVEdepStrand2Backbone := a2.2 }
    let a3 := mapIndex s.fGenVEdepStrand1Base parentDepth []
    let s := { s with fGenVEdepStrand1Base := a3.2 }
    let a4 := mapIndex s.fGenVEdepStrand2Base parentDepth []
    let s := { s with fGenVEdepStrand2Base := a4.2 }
    let r := runSplits cfg eventID a1.1 a2.1 a3.1 a4.1 fNbOfAlgo s rows
    fiberLoop cfg fNbOfAlgo eventID restKeys r.1 r.2

/-- Model of `UserHookForEndOfEvent`: loop over the fibres appearing in
`fGenVEdepStrand1Backbone`, then clear the two backbone generation maps
(`erase(begin(), end())`).  The two base generation maps are **not**
cleared.  Returns the post-event state and the ntuple rows filled
during the event. -/
def userHookForEndOfEvent (cfg : ScorerConfig) (fNbOfAlgo : Nat) (eventID : Int)
    (s : ScorerState) : ScorerState × List EventRow :=
  let r := fiberLoop cfg fNbOfAlgo eventID (s.fGenVEdepStrand1Backbone.map Prod.fst) s []
  let s := r.1
  ({ s with fGenVEdepStrand1Backbone := [], fGenVEdepStrand2Backbone := [] }, r.2)

/-!
## Constructor parameter wiring

The constructor reads the threshold parameters:

```
if ( fPm->ParameterExists(GetFullParmName("EnergyThresholdForHavingSSB")) )
    fThresEdepForSSB = fPm->GetDoubleParameter(GetFullParmName("EnergyThresholdForHavingSSB"), "Energy");
if ( fPm->ParameterExists(GetFullParmName("EnergyThresholdForHavingBD")) )
    fThresEdepForSSB = fPm->GetDoubleParameter(GetFullParmName("EnergyThresholdToInduceBD"), "Energy");
```

Note the second `if`: the guard tests `EnergyThresholdForHavingBD`, the
value is read from the differently-named `EnergyThresholdToInduceBD`,
and the assignment goes to `fThresEdepForSSB`, not `fThresEdepForBD`.
-/

/-- The parameter names involved in the scorer's threshold setup. -/
inductive ParmName where
  | basePairDistanceForDefiningDSB
  | energyThresholdForHavingSSB
  | energyThresholdForHavingBD
  | energyThresholdToInduceBD
deriving DecidableEq, Repr

/-- The TOPAS parameter manager, abstracted: which parameters exist in
the run's parameter file, and their values. -/
structure ParameterManager where
  parameterExists : ParmName → Bool
  getDoubleParameter : ParmName → Rat
  getIntegerParameter : ParmName → Int

/-- The threshold-related part of the scorer constructor: defaults,
then the parameter overrides exactly as written in the source.  Result:
`(fThresDistForDSB, fThresEdepForSSB, fThresEdepForBD)`. -/
def constructThresholds (pM : ParameterManager) : Int × Rat × Rat :=
  let fThresDistForDSB : Int := 10
  let fThresEdepForSSB := seventeenPointFive
  let fThresEdepForBD := seventeenPointFive
  let fThresDistForDSB :=
    if pM.parameterExists ParmName.basePairDistanceForDefiningDSB then
      pM.getIntegerParameter ParmName.basePairDistanceForDefiningDSB
    else fThresDistForDSB
  let fThresEdepForSSB :=
    if pM.parameterExists ParmName.energyThresholdForHavingSSB then
      pM.getDoubleParameter ParmName.energyThresholdForHavingSSB
    else fThresEdepForSSB
  let fThresEdepForSSB :=
    if pM.parameterExists ParmName.energyThresholdForHavingBD then
      pM.getDoubleParameter ParmName.energyThresholdToInduceBD
    else fThresEdepForSSB
  (fThresDistForDSB, fThresEdepForSSB, fThresEdepForBD)

/-!
## Concrete scenario data
-/

/-- The default configuration: DSB distance 10 bp, both energy
thresholds 17.5, cluster distance 40 bp. -/
def cfgDefault : ScorerConfig :=
  ⟨10, seventeenPointFive, seventeenPointFive, 40⟩

/-- A state holding one event's deposits: 20 (units of eV) in the
strand-1 backbone of fiber 0, split 0, bp 3. -/
def stateOneSSB : ScorerState :=
  { scorerStateZero with fGenVEdepStrand1Backbone := [(0, [(0, [(3, 20)])])] }

/-- The state after the end-of-event hook has processed `stateOneSSB`,
re-populated with the identical deposit by a second event. -/
def stateSecondEvent : ScorerState :=
  { (userHookForEndOfEvent cfgDefault 1 0 stateOneSSB).1 with
      fGenVEdepStrand1Backbone := [(0, [(0, [(3, 20)])])] }

/-- A state holding one event's deposits: 20 in the strand-1 backbone
of fiber 0, split 0, bp 3 and 20 in the strand-1 base of fiber 0,
split 0, bp 7. -/
def stateWithBase : ScorerState :=
  { scorerStateZero with
      fGenVEdepStrand1Backbone := [(0, [(0, [(3, 20)])])],
      fGenVEdepStrand1Base := [(0, [(0, [(7, 20)])])] }

/-- Configuration for the halving scenario: cluster distance 2 bp (so
that a DSB whose two sites are 5 bp apart stays unclustered). -/
def cfgCluster2 : ScorerConfig :=
  ⟨10, seventeenPointFive, seventeenPointFive, 2⟩

/-- A state holding one event's deposits: 20 in the strand-1 backbone
at bp 0 and 20 in the strand-2 backbone at bp 5 (fiber 0, split 0) —
one DSB pair whose sites are too far apart to cluster under
`cfgCluster2`. -/
def stateOneDSB : ScorerState :=
  { scorerStateZero with
      fGenVEdepStrand1Backbone := [(0, [(0, [(0, 20)])])],
      fGenVEdepStrand2Backbone := [(0, [(0, [(5, 20)])])] }

/-- State `stateOneDSB` as it stands when the split loop starts: the fiber
loop's `operator[]` accesses have inserted empty fiber-0 entries into
the two base generation maps. -/
def stateOneDSBStart : ScorerState :=
  { stateOneDSB with
      fGenVEdepStrand1Base := [(0, [])],
      fGenVEdepStrand2Base := [(0, [])] }

/-- The scorer state after any positive number of split iterations of
the `stateOneDSB` event: the DSB tally is halved within every
iteration, so it re-stabilizes at 1 (`(1 + 2) tdiv 2 = 1`). -/
def stateOneDSBMid : ScorerState :=
  { stateOneDSBStart with fTotalDSB := 1 }

/-- A parameter file that sets `EnergyThresholdForHavingSSB` to 20 and
`EnergyThresholdForHavingBD` to 30.  (The double lookup is modelled as
total; the name `EnergyThresholdToInduceBD` that the source actually
reads is mapped to the same 30 the user configured for the BD
threshold.) -/
def pmWithBD : ParameterManager where
  parameterExists p :=
    match p with
    | ParmName.energyThresholdForHavingSSB => true
    | ParmName.energyThresholdForHavingBD => true
    | _ => false
  getDoubleParameter p :=
    match p with
    | ParmName.energyThresholdForHavingSSB => 20
    | _ => 30
  getIntegerParameter _ := 0

end ClusteredDNADamage

namespace ClusteredDNADamage

/-!
# Theorems
-/

theorem recordDSB1DLoop_nil_left (thres : Int) (fuel : Nat) (l2 : List Int) :
    recordDSB1DLoop thres fuel [] l2 = ([], [], l2) := by
  cases fuel <;> cases l2 <;> rfl

theorem recordDSB1DLoop_nil_right (thres : Int) (fuel : Nat) (l1 : List Int) :
    recordDSB1DLoop thres fuel l1 [] = ([], l1, []) := by
  cases fuel <;> cases l1 <;> rfl

/-- The fuel argument of `recordDSB1DLoop` is irrelevant as long as it
covers the combined length of the two vectors. -/
theorem recordDSB1DLoop_fuel (thres : Int) :
    ∀ (fuel fuel' : Nat) (l1 l2 : List Int),
      l1.length + l2.length ≤ fuel → l1.length + l2.length ≤ fuel' →
      recordDSB1DLoop thres fuel l1 l2 = recordDSB1DLoop thres fuel' l1 l2 := by
  intro fuel
  induction fuel with
  | zero =>
    intro fuel' l1 l2 h _
    match l1, l2 with
    | [], l2 => rw [recordDSB1DLoop_nil_left, recordDSB1DLoop_nil_left]
    | a :: t1, l2 =>
      cases l2 with
      | nil => rw [recordDSB1DLoop_nil_right, recordDSB1DLoop_nil_right]
      | cons b t2 => simp at h
  | succ fuel ih =>
    intro fuel' l1 l2 h h'
    match l1, l2 with
    | [], l2 => rw [recordDSB1DLoop_nil_left, recordDSB1DLoop_nil_left]
    | a :: t1, [] => rw [recordDSB1DLoop_nil_right, recordDSB1DLoop_nil_right]
    | a :: t1, b :: t2 =>
      match fuel', h' with
      | fuel' + 1, h' =>
        simp only [recordDSB1DLoop]
        simp at h h'
        rw [ih fuel' t1 t2 (by omega) (by omega),
          ih fuel' (a :: t1) t2 (by simp; omega) (by simp; omega),
          ih fuel' t1 (b :: t2) (by simp; omega) (by simp; omega)]

/-- Unfolding equation for `recordDSB1DAux` on two non-empty vectors,
with the canonical fuel restored on every recursive call. -/
theorem recordDSB1DAux_cons (thres s1 s2 : Int) (t1 t2 : List Int) :
    recordDSB1DAux thres (s1 :: t1) (s2 :: t2) =
      if ((s2 - s1).natAbs : Int) ≤ thres then
        let r := recordDSB1DAux thres t1 t2
        ((if s1 ≤ s2 then (s1, s2) else (s2, s1)) :: r.1, r.2.1, r.2.2)
      else if s2 - s1 < 0 then
        let r := recordDSB1DAux thres (s1 :: t1) t2
        (r.1, r.2.1, s2 :: r.2.2)
      else
        let r := recordDSB1DAux thres t1 (s2 :: t2)
        (r.1, s1 :: r.2.1, r.2.2) := by
  show recordDSB1DLoop thres ((s1 :: t1).length + (s2 :: t2).length) _ _ = _
  simp only [recordDSB1DLoop, List.length_cons, Nat.add_eq]
  rw [recordDSB1DLoop_fuel thres (t1.length + 1 + t2.length)
      (t1.length + t2.length) t1 t2 (by omega) (by omega),
    recordDSB1DLoop_fuel thres (t1.length + 1 + t2.length)
      ((s1 :: t1).length + t2.length) (s1 :: t1) t2
      (by simp only [List.length_cons]; omega) (by simp only [List.length_cons]; omega),
    recordDSB1DLoop_fuel thres (t1.length + 1 + t2.length)
      (t1.length + (s2 :: t2).length) t1 (s2 :: t2)
      (by simp only [List.length_cons]; omega) (by simp only [List.length_cons]; omega)]
  rfl

theorem recordDSB1DAux_nil_left (thres : Int) (l2 : List Int) :
    recordDSB1DAux thres [] l2 = ([], [], l2) := by
  cases l2 <;> rfl

theorem recordDSB1DAux_nil_right (thres : Int) (l1 : List Int) :
    recordDSB1DAux thres l1 [] = ([], l1, []) := by
  cases l1 <;> rfl

example : recordDSB1D 1 [0, 3, 5, 9] [2, 8] = [2, 3, 8, 9] := by decide

example :
    recordDSB1DAux 1 [0, 3, 5, 9] [2, 8] = ([(2, 3), (8, 9)], [0, 5], []) := by
  decide

example : recordDSB1D 10 [0, 2] [9, 10] = [0, 9, 2, 10] := by decide

example : recordSimpleDamage seventeenPointFive [(0, [(3, 20), (5, 10)])] = [3] := by
  decide

/-- Every pair emitted by the DSB pairing loop is `(min a b, max a b)`
for some site `a` of the strand-1 vector and some site `b` of the
strand-2 vector. -/
theorem recordDSB1DLoop_pairs_mem (thres : Int) :
    ∀ (fuel : Nat) (l1 l2 : List Int) (p : Int × Int),
      p ∈ (recordDSB1DLoop thres fuel l1 l2).1 →
      ∃ a ∈ l1, ∃ b ∈ l2, p = (min a b, max a b) := by
  intro fuel
  induction fuel with
  | zero =>
    intro l1 l2 p hp
    match l1, l2 with
    | [], l2 => rw [recordDSB1DLoop_nil_left] at hp; simp at hp
    | a :: t1, [] => rw [recordDSB1DLoop_nil_right] at hp; simp at hp
    | a :: t1, b :: t2 => simp [recordDSB1DLoop] at hp
  | succ fuel ih =>
    intro l1 l2 p hp
    match l1, l2 with
    | [], l2 => rw [recordDSB1DLoop_nil_left] at hp; simp at hp
    | a :: t1, [] => rw [recordDSB1DLoop_nil_right] at hp; simp at hp
    | s1 :: t1, s2 :: t2 =>
      simp only [recordDSB1DLoop] at hp
      split at hp
      · rcases List.mem_cons.mp hp with hp | hp
        · refine ⟨s1, List.mem_cons_self _ _, s2, List.mem_cons_self _ _, ?_⟩
          rw [hp]
          rcases le_or_lt s1 s2 with h | h
          · simp [h, min_eq_left h, max_eq_right h]
          · simp [not_le.mpr h, min_eq_right h.le, max_eq_left h.le]
        · obtain ⟨a, ha, b, hb, hab⟩ := ih t1 t2 p hp
          exact ⟨a, List.mem_cons_of_mem _ ha, b, List.mem_cons_of_mem _ hb, hab⟩
      · split at hp
        · obtain ⟨a, ha, b, hb, hab⟩ := ih (s1 :: t1) t2 p hp
          exact ⟨a, ha, b, List.mem_cons_of_mem _ hb, hab⟩
        · obtain ⟨a, ha, b, hb, hab⟩ := ih t1 (s2 :: t2) p hp
          exact ⟨a, List.mem_cons_of_mem _ ha, b, hb, hab⟩

/-- The lowest-index-first emission of `RecordDSB1D` is the
`(min, max)` of the two cursor sites. -/
theorem pair_min_max (s1 s2 : Int) :
    (if s1 ≤ s2 then (s1, s2) else (s2, s1)) = (min s1 s2, max s1 s2) := by
  simp only [min_def, max_def]
  split_ifs <;> rfl

/-- For strictly ascending input vectors, the pairs emitted by the DSB
pairing loop strictly increase in both components. -/
theorem recordDSB1DLoop_pairs_chain (thres : Int) :
    ∀ (fuel : Nat) (l1 l2 : List Int),
      List.Sorted (· < ·) l1 → List.Sorted (· < ·) l2 →
      List.Chain' (fun p q : Int × Int => p.1 < q.1 ∧ p.2 < q.2)
        ((recordDSB1DLoop thres fuel l1 l2).1) := by
  intro fuel
  induction fuel with
  | zero =>
    intro l1 l2 _ _
    match l1, l2 with
    | [], l2 => rw [recordDSB1DLoop_nil_left]; exact List.chain'_nil
    | a :: t1, [] => rw [recordDSB1DLoop_nil_right]; exact List.chain'_nil
    | a :: t1, b :: t2 => simp [recordDSB1DLoop]
  | succ fuel ih =>
    intro l1 l2 h1 h2
    match l1, l2 with
    | [], l2 => rw [recordDSB1DLoop_nil_left]; exact List.chain'_nil
    | a :: t1, [] => rw [recordDSB1DLoop_nil_right]; exact List.chain'_nil
    | s1 :: t1, s2 :: t2 =>
      obtain ⟨hs1, h1'⟩ := List.sorted_cons.mp h1
      obtain ⟨hs2, h2'⟩ := List.sorted_cons.mp h2
      simp only [recordDSB1DLoop]
      split
      · rw [pair_min_max]
        refine List.chain'_cons'.mpr ⟨?_, ih t1 t2 h1' h2'⟩
        intro q hq
        obtain ⟨a, ha, b, hb, hab⟩ := recordDSB1DLoop_pairs_mem thres fuel t1 t2 q
          (List.mem_of_mem_head? hq)
        have h1a := hs1 a ha
        have h2b := hs2 b hb
        rw [hab]
        show min s1 s2 < min a b ∧ max s1 s2 < max a b
        omega
      · split
        · exact ih (s1 :: t1) t2 h1 h2'
        · exact ih t1 (s2 :: t2) h1' h2

/-- C7 (corrected).  For ascending-sorted strand SSB vectors, every
emitted DSB pair is internally ordered (first entry ≤ second entry) and
successive pairs strictly increase in both components; the flat
`indicesDSB1D` vector interleaves these pairs.  (The flat vector is
**not** in non-decreasing order overall — see the counterexample.) -/
theorem dsb_pairs_ordered (thres : Int) (l1 l2 : List Int)
    (h1 : List.Sorted (· < ·) l1) (h2 : List.Sorted (· < ·) l2) :
    (∀ p ∈ (recordDSB1DAux thres l1 l2).1, p.1 ≤ p.2) ∧
    List.Chain' (fun p q : Int × Int => p.1 < q.1 ∧ p.2 < q.2)
      (recordDSB1DAux thres l1 l2).1 ∧
    recordDSB1D thres l1 l2 =
      (recordDSB1DAux thres l1 l2).1.flatMap (fun p => [p.1, p.2]) := by
  refine ⟨?_, ?_, rfl⟩
  · intro p hp
    obtain ⟨a, _, b, _, hab⟩ :=
      recordDSB1DLoop_pairs_mem thres (l1.length + l2.length) l1 l2 p hp
    rw [hab]
    exact min_le_max
  · exact recordDSB1DLoop_pairs_chain thres (l1.length + l2.length) l1 l2 h1 h2

/-- Witness for `dsb_pairs_ordered` at the sorted input
`l1 = [0, 3]`, `l2 = [1, 10]`, threshold 1. -/
theorem dsb_pairs_ordered_witness :
    (∀ p ∈ (recordDSB1DAux 1 [0, 3] [1, 10]).1, p.1 ≤ p.2) ∧
    List.Chain' (fun p q : Int × Int => p.1 < q.1 ∧ p.2 < q.2)
      (recordDSB1DAux 1 [0, 3] [1, 10]).1 ∧
    recordDSB1D 1 [0, 3] [1, 10] =
      (recordDSB1DAux 1 [0, 3] [1, 10]).1.flatMap (fun p => [p.1, p.2]) :=
  dsb_pairs_ordered 1 [0, 3] [1, 10] (by decide) (by decide)

/-- C7 counterexample.  With the strictly ascending inputs `[0, 2]` and
`[9, 10]` and non-negative threshold 10, the flat DSB output is
`[0, 9, 2, 10]`, which is not in non-decreasing order overall. -/
theorem dsb_flat_output_not_sorted :
    List.Sorted (· < ·) [(0 : Int), 2] ∧
    List.Sorted (· < ·) [(9 : Int), 10] ∧
    (0 : Int) ≤ 10 ∧
    recordDSB1D 10 [0, 2] [9, 10] = [0, 9, 2, 10] ∧
    ¬ List.Sorted (· ≤ ·) (recordDSB1D 10 [0, 2] [9, 10]) :=
  ⟨by decide, by decide, by decide, by decide, by decide⟩

/-- C6 counterexample.  On the commented test input (strand-1 SSBs
`{0,3,5,9}`, strand-2 SSBs `{2,8}`, DSB distance threshold 1) the
pairing engine does **not** produce zero DSBs, and the strand-1 SSB
vector does not remain intact. -/
theorem scenario1_nonzero_dsbs :
    recordDSB1D 1 [0, 3, 5, 9] [2, 8] ≠ [] ∧
    (recordDSB1DAux 1 [0, 3, 5, 9] [2, 8]).2.1 ≠ [0, 3, 5, 9] := by
  decide

/-- C6 (corrected).  On the commented test input the pairing engine
emits exactly two DSBs, (2,3) and (8,9); the sites 0 and 5 remain
simple SSBs in strand 1 and none remain in strand 2. -/
theorem scenario1_two_dsbs :
    recordDSB1DAux 1 [0, 3, 5, 9] [2, 8] = ([(2, 3), (8, 9)], [0, 5], []) ∧
    recordDSB1D 1 [0, 3, 5, 9] [2, 8] = [2, 3, 8, 9] := by
  decide

/-- C1 (code bug).  The per-event tallies are never reset: after an
event with a single SSB is processed (its row reporting 1 SSB), a
second, identical event's row reports 2 SSBs — the totals of the second
event's output row are not independent of the first event. -/
theorem tallies_not_reset_across_events :
    (userHookForEndOfEvent cfgDefault 1 0 stateOneSSB).2 =
      [⟨0, 1, 0, 0, 0, 0⟩] ∧
    (userHookForEndOfEvent cfgDefault 1 1 stateSecondEvent).2 =
      [⟨1, 2, 0, 0, 0, 0⟩] ∧
    (2 : Int) ≠ 1 := by
  decide

/-- C2 (code bug).  After the end-of-event classification pass, the
strand-1 base accumulated-energy map still holds the event's base
deposit: the base maps are not drained or cleared at the event
boundary (only the two backbone maps are cleared). -/
theorem base_maps_survive_event_end :
    (userHookForEndOfEvent cfgDefault 1 0 stateWithBase).1.fGenVEdepStrand1Base =
      [(0, [(0, [(7, 20)])])] ∧
    (userHookForEndOfEvent cfgDefault 1 0 stateWithBase).1.fGenVEdepStrand1Base ≠ [] ∧
    (userHookForEndOfEvent cfgDefault 1 0 stateWithBase).1.fGenVEdepStrand1Backbone = [] ∧
    (userHookForEndOfEvent cfgDefault 1 0 stateWithBase).1.fGenVEdepStrand2Backbone = [] :=
  ⟨by decide, by decide, by decide, by decide⟩

/-- C3 (code bug).  `RecordSimpleDamage` receives its map by value:
after a call on a map holding a 20-eV deposit at bp 5, the caller's map
is unchanged (not empty), and an immediate second invocation on that
same map returns `[5]` again rather than the empty list. -/
theorem extraction_leaves_caller_map :
    recordSimpleDamageCall seventeenPointFive [(0, [(5, 20)])] =
      ([5], [(0, [(5, 20)])]) ∧
    ([(0, [(5, 20)])] : SplitMap) ≠ [] ∧
    recordSimpleDamage seventeenPointFive
      (recordSimpleDamageCall seventeenPointFive [(0, [(5, 20)])]).2 = [5] ∧
    ([5] : List Int) ≠ [] := by
  decide

theorem insertLoopGo_nil_left (t : DamageType) (fuel : Nat)
    (acc : List (Int × DamageType)) : insertLoopGo t fuel [] acc = acc := by
  cases fuel <;> cases acc <;> rfl

theorem insertLoopGo_nil_right (t : DamageType) (fuel : Nat) (xs : List Int) :
    insertLoopGo t fuel xs [] = xs.map (fun x => (x, t)) := by
  cases fuel <;> cases xs <;> rfl

/-- The fuel argument of `insertLoopGo` is irrelevant as long as it
covers `2·|xs| + |acc|` (each iteration either consumes one damage
entry, growing the cursor suffix by one, or shortens the cursor
suffix). -/
theorem insertLoopGo_fuel (t : DamageType) :
    ∀ (fuel fuel' : Nat) (xs : List Int) (acc : List (Int × DamageType)),
      2 * xs.length + acc.length ≤ fuel → 2 * xs.length + acc.length ≤ fuel' →
      insertLoopGo t fuel xs acc = insertLoopGo t fuel' xs acc := by
  intro fuel
  induction fuel with
  | zero =>
    intro fuel' xs acc h _
    match xs, acc with
    | [], acc => rw [insertLoopGo_nil_left, insertLoopGo_nil_left]
    | x :: xs, [] => rw [insertLoopGo_nil_right, insertLoopGo_nil_right]
    | x :: xs, a :: acc => simp only [List.length_cons] at h; omega
  | succ fuel ih =>
    intro fuel' xs acc h h'
    match xs, acc with
    | [], acc => rw [insertLoopGo_nil_left, insertLoopGo_nil_left]
    | x :: xs, [] => rw [insertLoopGo_nil_right, insertLoopGo_nil_right]
    | x :: xs, a :: acc =>
      match fuel', h' with
      | fuel' + 1, h' =>
        simp only [insertLoopGo]
        simp only [List.length_cons] at h h'
        rw [ih fuel' xs ((x, t) :: a :: acc)
            (by simp only [List.length_cons]; omega)
            (by simp only [List.length_cons]; omega),
          ih fuel' (x :: xs) acc
            (by simp only [List.length_cons]; omega)
            (by simp only [List.length_cons]; omega)]

theorem insertLoop_nil_left (t : DamageType) (acc : List (Int × DamageType)) :
    insertLoop t [] acc = acc :=
  insertLoopGo_nil_left t _ acc

theorem insertLoop_nil_right (t : DamageType) (xs : List Int) :
    insertLoop t xs [] = xs.map (fun x => (x, t)) :=
  insertLoopGo_nil_right t _ xs

/-- Unfolding equation for `insertLoop` with the canonical fuel
restored on both recursive calls. -/
theorem insertLoop_cons (t : DamageType) (x : Int) (xs : List Int)
    (a : Int × DamageType) (accRest : List (Int × DamageType)) :
    insertLoop t (x :: xs) (a :: accRest) =
      if x < a.1 then insertLoop t xs ((x, t) :: a :: accRest)
      else a :: insertLoop t (x :: xs) accRest := by
  have hf : 2 * (x :: xs).length + (a :: accRest).length
      = (2 * xs.length + accRest.length + 2) + 1 := by
    simp only [List.length_cons]; omega
  show insertLoopGo t (2 * (x :: xs).length + (a :: accRest).length) _ _ = _
  rw [hf]
  simp only [insertLoopGo]
  rw [insertLoopGo_fuel t (2 * xs.length + accRest.length + 2)
      (2 * xs.length + ((x, t) :: a :: accRest).length) xs ((x, t) :: a :: accRest)
      (by simp only [List.length_cons]; omega) (by simp only [List.length_cons]; omega),
    insertLoopGo_fuel t (2 * xs.length + accRest.length + 2)
      (2 * (x :: xs).length + accRest.length) (x :: xs) accRest
      (by simp only [List.length_cons]; omega) (by simp only [List.length_cons]; omega)]
  rfl

/-- When no remaining damage index is below the head of the combined
vector, the cursor simply walks past that head. -/
theorem insertLoop_skip_head (t : DamageType) (a : Int × DamageType)
    (xs : List Int) (acc : List (Int × DamageType))
    (hxs : ∀ y ∈ xs, ¬ y < a.1) :
    insertLoop t xs (a :: acc) = a :: insertLoop t xs acc := by
  cases xs with
  | nil => rw [insertLoop_nil_left, insertLoop_nil_left]
  | cons x xs =>
    rw [insertLoop_cons, if_neg (hxs x (List.mem_cons_self _ _))]

/-- Inserting the first damage index by the source's cursor loop agrees
with the spec's insert-before-first-strictly-greater rule, provided the
remaining damage indices are at least as large (the cursor never
returns to the part of the vector it has passed). -/
theorem insertLoop_insertSpec (t : DamageType) :
    ∀ (acc : List (Int × DamageType)) (x : Int) (xs : List Int),
      (∀ y ∈ xs, x ≤ y) →
      insertLoop t (x :: xs) acc = insertLoop t xs (insertSpec t x acc) := by
  intro acc
  induction acc with
  | nil =>
    intro x xs hx
    rw [insertLoop_nil_right]
    show _ = insertLoop t xs [(x, t)]
    rw [insertLoop_skip_head t (x, t) xs [] (fun y hy => not_lt.mpr (hx y hy)),
      insertLoop_nil_right]
    rfl
  | cons a accRest ih =>
    intro x xs hx
    rw [insertLoop_cons]
    by_cases hxa : x < a.1
    · rw [if_pos hxa]
      simp only [insertSpec, if_pos hxa]
    · rw [if_neg hxa]
      simp only [insertSpec, if_neg hxa]
      rw [ih x xs hx,
        insertLoop_skip_head t a xs (insertSpec t x accRest)
          (fun y hy => not_lt.mpr (le_trans (not_lt.mp hxa) (hx y hy)))]

/-- For an ascending damage list, the source's insertion block equals
the spec's fold of insert-before-first-strictly-greater steps. -/
theorem insertLoop_eq_insertAllSpec (t : DamageType) :
    ∀ (xs : List Int), List.Sorted (· ≤ ·) xs →
      ∀ (acc : List (Int × DamageType)),
        insertLoop t xs acc = insertAllSpec t xs acc := by
  intro xs
  induction xs with
  | nil => intro _ acc; rw [insertLoop_nil_left]; rfl
  | cons x xs ih =>
    intro hs acc
    obtain ⟨hx, hs'⟩ := List.sorted_cons.mp hs
    rw [insertLoop_insertSpec t acc x xs hx, ih hs' (insertSpec t x acc)]
    rfl

theorem insertSpec_mem (t : DamageType) (x : Int) :
    ∀ (l : List (Int × DamageType)) (q : Int × DamageType),
      q ∈ insertSpec t x l → q = (x, t) ∨ q ∈ l := by
  intro l
  induction l with
  | nil =>
    intro q hq
    simp only [insertSpec, List.mem_singleton] at hq
    exact Or.inl hq
  | cons a rest ih =>
    intro q hq
    simp only [insertSpec] at hq
    split at hq
    · rcases List.mem_cons.mp hq with h | h
      · exact Or.inl h
      · exact Or.inr h
    · rcases List.mem_cons.mp hq with h | h
      · exact Or.inr (h ▸ List.mem_cons_self _ _)
      · rcases ih q h with h' | h'
        · exact Or.inl h'
        · exact Or.inr (List.mem_cons_of_mem _ h')

/-- The spec's insertion rule preserves ascending bp order. -/
theorem insertSpec_sorted (t : DamageType) (x : Int) :
    ∀ (acc : List (Int × DamageType)),
      List.Sorted (fun p q : Int × DamageType => p.1 ≤ q.1) acc →
      List.Sorted (fun p q : Int × DamageType => p.1 ≤ q.1) (insertSpec t x acc) := by
  intro acc
  induction acc with
  | nil =>
    intro _
    simp [insertSpec]
  | cons a accRest ih =>
    intro hs
    obtain ⟨ha, hs'⟩ := List.sorted_cons.mp hs
    simp only [insertSpec]
    split
    · rename_i hxa
      refine List.sorted_cons.mpr ⟨?_, hs⟩
      intro q hq
      rcases List.mem_cons.mp hq with h | h
      · rw [h]; exact hxa.le
      · exact le_trans hxa.le (ha q h)
    · rename_i hxa
      refine List.sorted_cons.mpr ⟨?_, ih hs'⟩
      intro q hq
      rcases insertSpec_mem t x accRest q hq with h | h
      · rw [h]; exact not_lt.mp hxa
      · exact ha q h

/-- The spec's fold of insertions preserves ascending bp order. -/
theorem insertAllSpec_sorted (t : DamageType) :
    ∀ (xs : List Int) (acc : List (Int × DamageType)),
      List.Sorted (fun p q : Int × DamageType => p.1 ≤ q.1) acc →
      List.Sorted (fun p q : Int × DamageType => p.1 ≤ q.1) (insertAllSpec t xs acc) := by
  intro xs
  induction xs with
  | nil => intro acc h; exact h
  | cons x xs ih => intro acc h; exact ih (insertSpec t x acc) (insertSpec_sorted t x acc h)

/-- C9 (corrected).  For ascending-sorted source lists, the combined
damage sequence is ascending by bp index, and the merge follows the
insert-before-first-strictly-greater rule (`combineSimpleDamageSpec`):
an entry from a later-merged list is inserted before the first entry
with a **strictly greater** bp index, hence **after** (not before) any
equal-bp entries from earlier-merged lists. -/
theorem combine_sorted_ties_after (ssb1 bd1 ssb2 bd2 dsb : List Int)
    (h0 : List.Sorted (· ≤ ·) ssb1) (h1 : List.Sorted (· ≤ ·) bd1)
    (h2 : List.Sorted (· ≤ ·) ssb2) (h3 : List.Sorted (· ≤ ·) bd2)
    (h4 : List.Sorted (· ≤ ·) dsb) :
    combineSimpleDamage ssb1 bd1 ssb2 bd2 dsb =
      combineSimpleDamageSpec ssb1 bd1 ssb2 bd2 dsb ∧
    List.Sorted (fun p q : Int × DamageType => p.1 ≤ q.1)
      (combineSimpleDamage ssb1 bd1 ssb2 bd2 dsb) := by
  have hseed : List.Sorted (fun p q : Int × DamageType => p.1 ≤ q.1)
      (ssb1.map (fun site => (site, DamageType.ssb))) := by
    rw [List.Sorted, List.pairwise_map]
    exact h0
  have heq : combineSimpleDamage ssb1 bd1 ssb2 bd2 dsb =
      combineSimpleDamageSpec ssb1 bd1 ssb2 bd2 dsb := by
    simp only [combineSimpleDamage, combineSimpleDamageSpec]
    rw [insertLoop_eq_insertAllSpec DamageType.bd bd1 h1,
      insertLoop_eq_insertAllSpec DamageType.ssb ssb2 h2,
      insertLoop_eq_insertAllSpec DamageType.bd bd2 h3,
      insertLoop_eq_insertAllSpec DamageType.dsb dsb h4]
  refine ⟨heq, ?_⟩
  rw [heq]
  unfold combineSimpleDamageSpec
  exact insertAllSpec_sorted _ _ _
    (insertAllSpec_sorted _ _ _
      (insertAllSpec_sorted _ _ _
        (insertAllSpec_sorted _ _ _ hseed)))

/-- Witness for `combine_sorted_ties_after` at the source's commented
test lists. -/
theorem combine_sorted_ties_after_witness :
    combineSimpleDamage [3, 4, 5, 7, 9] [1, 4, 7] [1, 12] [6, 7, 10, 12] [3, 5, 11, 14] =
      combineSimpleDamageSpec [3, 4, 5, 7, 9] [1, 4, 7] [1, 12] [6, 7, 10, 12] [3, 5, 11, 14] ∧
    List.Sorted (fun p q : Int × DamageType => p.1 ≤ q.1)
      (combineSimpleDamage [3, 4, 5, 7, 9] [1, 4, 7] [1, 12] [6, 7, 10, 12] [3, 5, 11, 14]) :=
  combine_sorted_ties_after [3, 4, 5, 7, 9] [1, 4, 7] [1, 12] [6, 7, 10, 12] [3, 5, 11, 14]
    (by decide) (by decide) (by decide) (by decide) (by decide)

/-- C9 counterexample.  With a strand-1 SSB and a strand-1 BD both at
bp 5, the later-merged BD entry is placed **after** the equal-bp SSB
entry, not before it. -/
theorem merge_tie_goes_after :
    combineSimpleDamage [5] [5] [] [] [] =
      [(5, DamageType.ssb), (5, DamageType.bd)] ∧
    combineSimpleDamage [5] [5] [] [] [] ≠
      [(5, DamageType.bd), (5, DamageType.ssb)] :=
  ⟨by decide, by decide⟩

/-- Lemma: `AddDamageToCluster` moves one unit of the damage's type from the
running tally into the cluster accumulator; recorded sums and the other
counters are untouched. -/
theorem addDamage_invariant (s : ScorerState) (cluster : DamageCluster)
    (site : Int) (ty : DamageType) (ncflag : Bool) :
    ((addDamageToCluster s cluster site ty ncflag).1.fTotalSSB
        + recordedNumSSB (addDamageToCluster s cluster site ty ncflag).1
        + (addDamageToCluster s cluster site ty ncflag).2.numSSB
      = s.fTotalSSB + recordedNumSSB s + cluster.numSSB)
    ∧ ((addDamageToCluster s cluster site ty ncflag).1.fTotalBD
        + recordedNumBD (addDamageToCluster s cluster site ty ncflag).1
        + (addDamageToCluster s cluster site ty ncflag).2.numBD
      = s.fTotalBD + recordedNumBD s + cluster.numBD) := by
  cases ncflag <;> cases ty <;>
    simp [addDamageToCluster, recordedNumSSB, recordedNumBD] <;> omega

/-- Lemma: `RecordCluster` moves the cluster's SSB and BD counts into the
recorded sums; the running tallies are untouched and the accumulator is
reset. -/
theorem recordCluster_invariant (s : ScorerState) (cluster : DamageCluster) :
    ((recordCluster s cluster).1.fTotalSSB
        + recordedNumSSB (recordCluster s cluster).1
      = s.fTotalSSB + recordedNumSSB s + cluster.numSSB)
    ∧ ((recordCluster s cluster).1.fTotalBD
        + recordedNumBD (recordCluster s cluster).1
      = s.fTotalBD + recordedNumBD s + cluster.numBD) := by
  by_cases h : cluster.numDSB > 0 <;>
    simp [recordCluster, h, recordedNumSSB, recordedNumBD, List.sum_append] <;> omega

theorem recordCluster_snd (s : ScorerState) (cluster : DamageCluster) :
    (recordCluster s cluster).2 = damageClusterInit := by
  by_cases h : cluster.numDSB > 0 <;> simp [recordCluster, h]

/-- Scan invariant of `RecordClusteredDamage`: along the whole scan,
`fTotalSSB + Σ(recorded numSSB) + (open cluster).numSSB` is conserved
(and likewise for BD); the `newCluster` flag is always the negation of
`buildingCluster`; and whenever no cluster is open the accumulator is
reset. -/
theorem clusterLoop_conservation (cfg : ScorerConfig) :
    ∀ (sites : List (Int × DamageType)) (sitePrev : Int × DamageType)
      (s : ScorerState) (cluster : DamageCluster) (b : Bool),
      (b = false → cluster = damageClusterInit) →
      ((clusterLoop cfg s cluster (!b) b sitePrev sites).1.fTotalSSB
          + recordedNumSSB (clusterLoop cfg s cluster (!b) b sitePrev sites).1
          + (clusterLoop cfg s cluster (!b) b sitePrev sites).2.1.numSSB
        = s.fTotalSSB + recordedNumSSB s + cluster.numSSB)
      ∧ ((clusterLoop cfg s cluster (!b) b sitePrev sites).1.fTotalBD
          + recordedNumBD (clusterLoop cfg s cluster (!b) b sitePrev sites).1
          + (clusterLoop cfg s cluster (!b) b sitePrev sites).2.1.numBD
        = s.fTotalBD + recordedNumBD s + cluster.numBD)
      ∧ ((clusterLoop cfg s cluster (!b) b sitePrev sites).2.2.1
          = !(clusterLoop cfg s cluster (!b) b sitePrev sites).2.2.2)
      ∧ ((clusterLoop cfg s cluster (!b) b sitePrev sites).2.2.2 = false →
          (clusterLoop cfg s cluster (!b) b sitePrev sites).2.1 = damageClusterInit) := by
  intro sites
  induction sites with
  | nil =>
    intro sitePrev s cluster b hinit
    refine ⟨rfl, rfl, rfl, ?_⟩
    exact hinit
  | cons siteCur rest ih =>
    intro sitePrev s cluster b hinit
    cases b with
    | false =>
      have hcl := hinit rfl
      subst hcl
      simp only [clusterLoop, Bool.not_false, eq_self_iff_true, if_true]
      split
      · -- close enough: open a new cluster with prev, add cur, recurse (Open)
        have hadd1 := addDamage_invariant s damageClusterInit sitePrev.1 sitePrev.2 true
        have hadd2 := addDamage_invariant
          (addDamageToCluster s damageClusterInit sitePrev.1 sitePrev.2 true).1
          (addDamageToCluster s damageClusterInit sitePrev.1 sitePrev.2 true).2
          siteCur.1 siteCur.2 false
        have hrec := ih siteCur
          (addDamageToCluster
            (addDamageToCluster s damageClusterInit sitePrev.1 sitePrev.2 true).1
            (addDamageToCluster s damageClusterInit sitePrev.1 sitePrev.2 true).2
            siteCur.1 siteCur.2 false).1
          (addDamageToCluster
            (addDamageToCluster s damageClusterInit sitePrev.1 sitePrev.2 true).1
            (addDamageToCluster s damageClusterInit sitePrev.1 sitePrev.2 true).2
            siteCur.1 siteCur.2 false).2
          true (by intro h; cases h)
        simp only [Bool.not_true] at hrec
        refine ⟨?_, ?_, hrec.2.2.1, hrec.2.2.2⟩
        · have h1 := hrec.1
          have h2 := hadd1.1
          have h3 := hadd2.1
          omega
        · have h1 := hrec.2.1
          have h2 := hadd1.2
          have h3 := hadd2.2
          omega
      · -- gap too large, nothing open: keep scanning (Idle)
        have hrec := ih siteCur s damageClusterInit false hinit
        simpa using hrec
    | true =>
      simp only [clusterLoop, Bool.not_true, Bool.false_eq_true, if_false]
      split
      · -- close enough: add cur to the open cluster, stay Open
        have hadd := addDamage_invariant s cluster siteCur.1 siteCur.2 false
        have hrec := ih siteCur
          (addDamageToCluster s cluster siteCur.1 siteCur.2 false).1
          (addDamageToCluster s cluster siteCur.1 siteCur.2 false).2
          true (by intro h; cases h)
        simp only [Bool.not_true] at hrec
        refine ⟨?_, ?_, hrec.2.2.1, hrec.2.2.2⟩
        · have h1 := hrec.1
          have h2 := hadd.1
          omega
        · have h1 := hrec.2.1
          have h2 := hadd.2
          omega
      · -- gap too large: finalize the open cluster, go back to Idle
        have hfold := recordCluster_invariant s cluster
        have hsnd := recordCluster_snd s cluster
        simp only [eq_self_iff_true, if_true, hsnd]
        have hrec := ih siteCur (recordCluster s cluster).1
          damageClusterInit false (fun _ => rfl)
        simp only [Bool.not_false] at hrec
        have hzero1 : damageClusterInit.numSSB = 0 := rfl
        have hzero2 : damageClusterInit.numBD = 0 := rfl
        refine ⟨?_, ?_, hrec.2.2.1, hrec.2.2.2⟩
        · have h1 := hrec.1
          have h2 := hfold.1
          omega
        · have h1 := hrec.2.1
          have h2 := hfold.2
          omega

theorem totalSSB_set_dsb (x : ScorerState) (v : Int) :
    ({ x with fTotalDSB := v } : ScorerState).fTotalSSB = x.fTotalSSB := rfl

theorem totalBD_set_dsb (x : ScorerState) (v : Int) :
    ({ x with fTotalDSB := v } : ScorerState).fTotalBD = x.fTotalBD := rfl

theorem recordedNumSSB_set_dsb (x : ScorerState) (v : Int) :
    recordedNumSSB { x with fTotalDSB := v } = recordedNumSSB x := rfl

theorem recordedNumBD_set_dsb (x : ScorerState) (v : Int) :
    recordedNumBD { x with fTotalDSB := v } = recordedNumBD x := rfl

/-- C8 (corrected).  For every clustering pass (any configuration, any
ordered damage sequence, any starting state) the conservation laws hold
for SSB and BD: the tally before the pass equals the tally after plus
the sum of the matching per-cluster counts the pass recorded.  The
analogous law FAILS for DSB (see the counterexample): `RecordCluster`
halves a cluster's `numDSB` before recording it, and the pass finally
halves `fTotalDSB` itself. -/
theorem cluster_tally_conservation (cfg : ScorerConfig)
    (l : List (Int × DamageType)) (s : ScorerState) :
    s.fTotalSSB = (recordClusteredDamage cfg s l).fTotalSSB
      + (recordedNumSSB (recordClusteredDamage cfg s l) - recordedNumSSB s) ∧
    s.fTotalBD = (recordClusteredDamage cfg s l).fTotalBD
      + (recordedNumBD (recordClusteredDamage cfg s l) - recordedNumBD s) := by
  match l with
  | [] =>
    simp only [recordClusteredDamage]
    constructor <;> omega
  | [p] =>
    simp only [recordClusteredDamage]
    constructor <;> omega
  | p :: q :: rest =>
    have h := clusterLoop_conservation cfg (q :: rest) p s damageClusterInit
      false (fun _ => rfl)
    simp only [Bool.not_false] at h
    have hzero1 : damageClusterInit.numSSB = 0 := rfl
    have hzero2 : damageClusterInit.numBD = 0 := rfl
    simp only [recordClusteredDamage, totalSSB_set_dsb, totalBD_set_dsb,
      recordedNumSSB_set_dsb, recordedNumBD_set_dsb]
    split
    · rename_i hb
      have hfold := recordCluster_invariant
        (clusterLoop cfg s damageClusterInit true false p (q :: rest)).1
        (clusterLoop cfg s damageClusterInit true false p (q :: rest)).2.1
      constructor
      · have h1 := h.1
        have h2 := hfold.1
        omega
      · have h1 := h.2.1
        have h2 := hfold.2
        omega
    · rename_i hb
      have hcl := h.2.2.2 (by
        cases hx : (clusterLoop cfg s damageClusterInit true false p (q :: rest)).2.2.2
        · rfl
        · exact absurd hx hb)
      have h4 : (clusterLoop cfg s damageClusterInit true false p (q :: rest)).2.1.numSSB = 0 := by
        rw [hcl]; exact hzero1
      have h5 : (clusterLoop cfg s damageClusterInit true false p (q :: rest)).2.1.numBD = 0 := by
        rw [hcl]; exact hzero2
      constructor
      · have h1 := h.1
        omega
      · have h1 := h.2.1
        omega

/-- C8 counterexample.  A pass over the two entries of a single DSB
(cluster distance 2, starting tally `totalDSB = 2`) absorbs both
entries into one Complex DSB cluster recorded with `numDSB = 1` and
ends with `totalDSB = 0`: the claimed DSB conservation law would
require `2 = 0 + 1`. -/
theorem dsb_conservation_fails :
    ¬ (({ scorerStateZero with fTotalDSB := 2 } : ScorerState).fTotalDSB =
        (recordClusteredDamage cfgCluster2 { scorerStateZero with fTotalDSB := 2 }
          [(1, DamageType.dsb), (2, DamageType.dsb)]).fTotalDSB
        + (recordedNumDSB (recordClusteredDamage cfgCluster2
            { scorerStateZero with fTotalDSB := 2 }
            [(1, DamageType.dsb), (2, DamageType.dsb)])
          - recordedNumDSB { scorerStateZero with fTotalDSB := 2 })) := by
  decide

/-- The state component of one split iteration does not depend on the
ntuple rows accumulated so far. -/
theorem splitIter_fst_rows (cfg : ScorerConfig) (e : Int)
    (v1 v2 v3 v4 : SplitMap) (s : ScorerState) (rows rows' : List EventRow) :
    (splitIter cfg e v1 v2 v3 v4 s rows).1 =
      (splitIter cfg e v1 v2 v3 v4 s rows').1 := rfl

/-- First split iteration of the `stateOneDSB` event: the DSB tally
becomes `(0 + 2) tdiv 2 = 1`. -/
theorem iter_oneDSB_start_state :
    (splitIter cfgCluster2 0 [(0, [(0, 20)])] [(0, [(5, 20)])] [] []
      stateOneDSBStart []).1 = stateOneDSBMid := by
  decide

/-- Every further split iteration of the `stateOneDSB` event is a fixed
point: the DSB tally stays `(1 + 2) tdiv 2 = 1`. -/
theorem iter_oneDSB_mid_state :
    (splitIter cfgCluster2 0 [(0, [(0, 20)])] [(0, [(5, 20)])] [] []
      stateOneDSBMid []).1 = stateOneDSBMid := by
  decide

theorem runSplits_oneDSB_mid :
    ∀ (k : Nat) (rows : List EventRow),
      (runSplits cfgCluster2 0 [(0, [(0, 20)])] [(0, [(5, 20)])] [] [] k
        stateOneDSBMid rows).1 = stateOneDSBMid := by
  intro k
  induction k with
  | zero => intro rows; rfl
  | succ j ih =>
    intro rows
    simp only [runSplits]
    rw [splitIter_fst_rows cfgCluster2 0 _ _ _ _ stateOneDSBMid rows [],
      iter_oneDSB_mid_state]
    exact ih _

/-- C4 (corrected).  The division of `fTotalDSB` by two is applied at
the end of **every** clustering pass, i.e. once per (fiber, split)
iteration, not once per event: for the single-fiber event with one
unclustered DSB, the event's final DSB tally is 1 for *every* number of
variance-reduction splits `n ≥ 1`, because every iteration re-halves
the tally (`(1 + 2) tdiv 2 = 1`), whereas a single end-of-event halving
of the accumulated `2·n` entries would give `n`. -/
theorem halving_applied_per_split_pass (n : Nat) (h : 1 ≤ n) :
    (userHookForEndOfEvent cfgCluster2 n 0 stateOneDSB).1.fTotalDSB = 1 := by
  obtain ⟨j, rfl⟩ : ∃ j, n = j + 1 := ⟨n - 1, by omega⟩
  have hred : (userHookForEndOfEvent cfgCluster2 (j + 1) 0 stateOneDSB).1.fTotalDSB =
      (runSplits cfgCluster2 0 [(0, [(0, 20)])] [(0, [(5, 20)])] [] [] (j + 1)
        stateOneDSBStart []).1.fTotalDSB := rfl
  rw [hred]
  simp only [runSplits]
  rw [iter_oneDSB_start_state, runSplits_oneDSB_mid j _]
  rfl

/-- Witness for `halving_applied_per_split_pass` at `n = 2`. -/
theorem halving_applied_per_split_pass_witness :
    (userHookForEndOfEvent cfgCluster2 2 0 stateOneDSB).1.fTotalDSB = 1 :=
  halving_applied_per_split_pass 2 (by decide)

/-- C4 counterexample.  In a two-split event whose single pass output
is one DSB pair (2 raw entries per pass, 4 in total), the event ends
with `fTotalDSB = 1`; a division applied exactly once per event, after
both passes, would give `4 tdiv 2 = 2`. -/
theorem halving_not_once_per_event :
    recordDSB1D 10 [0] [5] = [0, 5] ∧
    (userHookForEndOfEvent cfgCluster2 2 0 stateOneDSB).1.fTotalDSB = 1 ∧
    Int.tdiv (2 + 2) 2 = 2 ∧ ((1 : Int) ≠ 2) :=
  ⟨by decide, by decide, by decide, by decide⟩

/-- The drain loop keeps exactly the keys whose accumulated energy
reaches the threshold, in map order. -/
theorem drainLoop_eq_filter (t : Rat) :
    ∀ (m : InnerMap),
      drainLoop t m = (m.filter (fun p => t ≤ p.2)).map Prod.fst := by
  intro m
  induction m with
  | nil => rfl
  | cons p rest ih =>
    obtain ⟨k, e⟩ := p
    simp only [drainLoop, List.filter]
    by_cases h : t ≤ e
    · rw [if_pos h]
      simp [h, ih]
    · rw [if_neg h]
      simp [h, ih]

/-- C10 (confirmed).  `RecordSimpleDamage` returns exactly the keys of
the split-0 inner map whose energy is ≥ the threshold; maps agreeing at
outer key 0 give identical results (entries under any other split index
are ignored), and the result is ascending whenever the inner map is —
so with `NumberOfSplit > 1`, every split iteration over the same
(by-value, hence never drained) fiber map extracts the identical
damage-site list. -/
theorem extraction_is_threshold_filter (t : Rat) (m : SplitMap) :
    recordSimpleDamage t m =
      (((m.lookup 0).getD []).filter (fun p => t ≤ p.2)).map Prod.fst ∧
    (∀ m' : SplitMap, m'.lookup 0 = m.lookup 0 →
      recordSimpleDamage t m' = recordSimpleDamage t m) ∧
    (List.Sorted (· < ·) (((m.lookup 0).getD []).map Prod.fst) →
      List.Sorted (· < ·) (recordSimpleDamage t m)) := by
  refine ⟨drainLoop_eq_filter t _, ?_, ?_⟩
  · intro m' h
    simp only [recordSimpleDamage, h]
  · intro hs
    show List.Sorted (· < ·) (drainLoop t ((m.lookup 0).getD []))
    rw [drainLoop_eq_filter]
    have hsub : ((((m.lookup 0).getD []).filter (fun p => t ≤ p.2)).map Prod.fst).Sublist
        (((m.lookup 0).getD []).map Prod.fst) :=
      (List.filter_sublist _).map Prod.fst
    exact List.Pairwise.sublist hsub hs

/-- Witness for `extraction_is_threshold_filter`: a map with an extra
split-1 entry extracts the same list as without it, and the result is
ascending. -/
theorem extraction_is_threshold_filter_witness :
    recordSimpleDamage 10 [(0, [(1, 5), (2, 15)]), (1, [(9, 100)])] =
      recordSimpleDamage 10 [(0, [(1, 5), (2, 15)])] ∧
    List.Sorted (· < ·) (recordSimpleDamage 10 [(0, [(1, 5), (2, 15)])]) :=
  ⟨(extraction_is_threshold_filter 10 [(0, [(1, 5), (2, 15)])]).2.1
      [(0, [(1, 5), (2, 15)]), (1, [(9, 100)])] (by decide),
    (extraction_is_threshold_filter 10 [(0, [(1, 5), (2, 15)])]).2.2 (by decide)⟩

/-- C5 (code bug).  In a run configuring
`EnergyThresholdForHavingSSB = 20` and `EnergyThresholdForHavingBD =
30`, the constructor leaves `fThresEdepForBD` (used for base-damage
extraction) at its default 17.5 and overwrites `fThresEdepForSSB`
(used for backbone extraction) with 30: the BD parameter never reaches
the BD threshold, and the SSB threshold is not determined solely by
`EnergyThresholdForHavingSSB`. -/
theorem bd_threshold_misassigned :
    constructThresholds pmWithBD = (10, 30, seventeenPointFive) ∧
    seventeenPointFive ≠ (30 : Rat) ∧
    (30 : Rat) ≠ 20 := by
  decide

end ClusteredDNADamage
